import Mathlib

/-
Verification development for the earth-engine pipeline of the
collaborative-earth/forest repository.

Shallow embedding conventions
-----------------------------

The repository's numeric core is written against the Earth Engine (EE)
client library, which evaluates lazily on a server.  Every claim here is a
per-pixel statement, so the embedding works with explicit per-pixel values:

* a band value is a `Option ℚ`: `none` is an EE masked (no-data) value,
  `some q` an unmasked value.  EE computes in floating point; the claims
  only involve small exact decimal constants and integer band values, for
  which rational arithmetic agrees with the float computation, so band
  arithmetic is embedded over `ℚ`.
* an `ee.Image` is a function from an abstract pixel-index type `P` to
  per-pixel data; "spatial shape" is the type `P`, which every operation
  preserves by construction.
* an `ee.ImageCollection` is a `List` of images, in EE's deterministic
  iteration order; `merge` concatenates (first collection first).
* EE semantics embedded for the operations the source uses:
  - `divide`: division by zero yields a masked value (`eeDiv`);
  - `toShort`: cast to a signed 16-bit integer, truncating the fraction
    toward zero and saturating at the type bounds (`toShort`);
  - binary arithmetic (`subtract`, `pow`): masked if either input is masked;
  - `reduce("sum")` over the bands of one image: sums the unmasked band
    values, masked when no band contributes;
  - `median` over a collection: per pixel per band, the exact median of the
    unmasked values (mean of the two middle values for an even count),
    masked when no value contributes (`eeMedian`);
  - `ee.Reducer.min(7)` over a collection: per pixel, among the images whose
    7 inputs are all unmasked, the 7-tuple with the smallest first input.
    EE does not document which tuple is kept when several attain the
    minimum; the reduction only sees the 7 numeric inputs (distance and the
    6 bands), never acquisition metadata, so whatever the tie rule is it can
    depend only on those values and on collection order.  The embedding
    (`minReduce7`) keeps the first minimal tuple in collection order;
  - `updateMask`: the new mask is the conjunction of the existing mask and
    the argument, i.e. already-masked pixels stay masked;
  - `arraySlice`/`arrayMask`/`arraySort` on per-pixel arrays: list slicing,
    filtering and (stable insertion) sorting of the per-pixel segment list;
    EE does not document `arraySort`'s tie order, and no claim depends on it;
  - `filterDate(a, b)`: keeps images with a ≤ date < b; the source advances
    the end date by one day to make the configured end day inclusive, so the
    embedded year filter is inclusive on both ends.  Calendar dates within a
    year are represented by the number month*100+day (`md`), whose numeric
    order is the calendar order; the spec makes wrap-around windows a
    precondition violation, so a within-year window is `startMd ≤ md ≤ endMd`.

Python exceptions are embedded with `Except`: `NotImplementedError` and
`RuntimeError` from the index lookup become the two constructors of
`IndexErr`.  Functions that cannot raise are total.

Source files embedded (names kept):
  src/earth-engine/landtrendr/preprocess.py  — harmonization_Roy (inner
    function of _build_OLI_collection), _mask_landsat_sr, _euclidean_distance
    (inner function of _extract_medoid_image), _extract_medoid_image,
    _create_yearly_list, _generate_medoid_collection, _build_combined_Landsat,
    INDEX_DICT, build_LT_collection;
  src/earth-engine/landtrendr/postprocess.py — get_segment_data,
    extract_deforestation_events, extract_deforested_regions;
  src/earth-engine/build_SR_collection.py holds verbatim duplicates of the
    compositing pipeline (mask_landsat_sr, extract_medoid_image,
    build_combined_Landsat, ...); the single embedding below covers both
    copies.
-/

namespace Forest

/-- EE `divide`: division by zero produces a masked (no-data) value. -/
def eeDiv (a b : ℚ) : Option ℚ :=
  if b = 0 then none else some (a / b)

/-- Truncation of a rational toward zero, as performed by EE casts from
float to integer types (`Int.tdiv` is truncating division). -/
def ratTrunc (q : ℚ) : ℤ :=
  Int.tdiv q.num (q.den : ℤ)

/-- EE `toShort`: cast to a signed 16-bit integer; fraction truncated toward
zero, out-of-range values saturate at the type bounds. -/
def toShort (q : ℚ) : ℤ :=
  max (-32768) (min 32767 (ratTrunc q))

/-- Per-band slopes of the Roy et al. OLI to TM harmonization, in the
canonical band order B1,B2,B3,B4,B5,B7 (`_harmonization_Roy`). -/
def slopes : Fin 6 → ℚ := ![0.9785, 0.9542, 0.9825, 1.0073, 1.0171, 0.9949]

/-- Per-band intercepts of the Roy et al. OLI to TM harmonization
(`_harmonization_Roy`). -/
def intercepts : Fin 6 → ℚ := ![-0.0095, -0.0016, -0.0022, -0.0021, -0.0030, 0.0029]

/-- One unmasked band value of `_harmonization_Roy`:
`image.subtract(intercepts.multiply(10000)).divide(slopes).toShort()`. -/
def harmonization_Roy (i : Fin 6) (x : ℚ) : ℤ :=
  toShort ((x - intercepts i * 10000) / slopes i)

/-- QA test of `_mask_landsat_sr`: bits 2 (water), 3 (cloud shadow),
4 (snow) and 5 (cloud) of the pixel_qa value must all be clear. -/
def qaMaskOk (qa : ℕ) : Bool :=
  (qa &&& (1 <<< 2) == 0) && (qa &&& (1 <<< 3) == 0) &&
    (qa &&& (1 <<< 4) == 0) && (qa &&& (1 <<< 5) == 0)

/-- One pixel of a raw Landsat SR image: six band values (maskable, as in
the source products) and the pixel_qa value. -/
structure RawPixel where
  bands : Fin 6 → Option ℚ
  qa : ℕ

/-- Per-pixel `_mask_landsat_sr`: `image.updateMask(qa_mask)`.  `updateMask`
conjoins masks, so a band that is already masked stays masked. -/
def mask_landsat_sr (p : RawPixel) : Fin 6 → Option ℚ :=
  fun i => if qaMaskOk p.qa then p.bands i else none

/-- `_mask_landsat_sr` lifted to a whole image; the pixel grid `P` is
unchanged by construction. -/
def mask_landsat_sr_image {P : Type} (img : P → RawPixel) : P → Fin 6 → Option ℚ :=
  fun p => mask_landsat_sr (img p)

/-- Value of one `INDEX_DICT` entry: disturbance direction sign and the
normalized-difference band pair. -/
structure IndexInfo where
  dist_dir : ℤ
  bands : List String
deriving DecidableEq

/-- The `INDEX_DICT` dictionary, identical in preprocess.py and
postprocess.py. -/
def INDEX_DICT : List (String × IndexInfo) :=
  [("NDVI", ⟨-1, ["B4", "B3"]⟩), ("NBR", ⟨-1, ["B4", "B7"]⟩)]

/-- The two distinct exceptions of the index lookup: `notImplemented`
embeds Python's `NotImplementedError`, `unrecognized` embeds the
`RuntimeError` for a wholly unknown name. -/
inductive IndexErr where
  | notImplemented
  | unrecognized
deriving DecidableEq

/-- The known-but-unimplemented index names tested in the `except KeyError`
branch of `build_LT_collection` and `get_segment_data`. -/
def knownUnimplementedIndices : List String :=
  ["NDSI", "NDMI", "TCB", "TCG", "TCW", "TCA", "NBR2"]

/-- One pixel of a 6-band surface-reflectance composite image. -/
def PixBands : Type := Fin 6 → Option ℚ

/-- Position of a canonical band name in the band order B1,B2,B3,B4,B5,B7
of a composite produced by `build_SR_collection`. -/
def bandIndex (name : String) : Option (Fin 6) :=
  if name = "B1" then some 0 else if name = "B2" then some 1
  else if name = "B3" then some 2 else if name = "B4" then some 3
  else if name = "B5" then some 4 else if name = "B7" then some 5
  else none

/-- EE `normalizedDifference(bands)` at one pixel: (a − b) / (a + b) of the
two named bands; masked if either band is masked or the sum is zero. -/
def normalizedDifference (pix : PixBands) (bs : List String) : Option ℚ :=
  match bs with
  | [n1, n2] => do
      let i1 ← bandIndex n1
      let i2 ← bandIndex n2
      let a ← pix i1
      let b ← pix i2
      eeDiv (a - b) (a + b)
  | _ => none

/-- Per-pixel `build_LT_collection` (preprocess.py): look the index up in
`INDEX_DICT` (`NotImplementedError` for a recognized-but-unimplemented name,
`RuntimeError` otherwise), then map `_format_images` over the collection:
the index band is the normalized difference of the index's band pair times
`dist_dir * 1000`, followed by the carried-through ftv bands. -/
def build_LT_collection (collection : List PixBands) (index : String)
    (ftv_list : List (Fin 6)) : Except IndexErr (List (Option ℚ × List (Option ℚ))) :=
  match INDEX_DICT.lookup index with
  | none =>
      if index ∈ knownUnimplementedIndices then .error .notImplemented
      else .error .unrecognized
  | some index_info =>
      .ok (collection.map fun pix =>
        ((normalizedDifference pix index_info.bands).map
            (fun v => v * ((index_info.dist_dir : ℚ) * 1000)),
          ftv_list.map pix))

/-- One column of the per-pixel LandTrendr output array: row 0 the year,
row 1 the source value, row 2 the fitted value, row 3 the is-vertex flag. -/
structure LTcol where
  yr : ℚ
  raw : ℚ
  fit : ℚ
  vtx : Bool
deriving DecidableEq

/-- One per-pixel segment record, in the channel order of `get_segment_data`:
`[start_year.add(1), end_year, start_val, end_val, mag, dur, rate, dsnr]`.
`rate` and `dsnr` are maskable (division by zero). -/
structure Segment where
  yod : ℚ
  endYr : ℚ
  startVal : ℚ
  endVal : ℚ
  mag : ℚ
  dur : ℚ
  rate : Option ℚ
  dsnr : Option ℚ
deriving DecidableEq

/-- The vertex columns of a LandTrendr pixel:
`vertices = lt_output.arrayMask(lt_output.arraySlice(0, 3, 4))`. -/
def verticesOf (ltPix : List LTcol) : List LTcol :=
  ltPix.filter (·.vtx)

/-- The arithmetic core of `get_segment_data` on the vertex columns:
`left = vertices.arraySlice(1, 0, -1)`, `right = vertices.arraySlice(1, 1)`,
then per consecutive pair the eight channels, with `dur` computed from the
unshifted years and the start year shifted by one only in the output. -/
def mkSegments (v : List LTcol) (rmse : ℚ) (dist_dir : ℚ) : List Segment :=
  (v.dropLast.zip (v.drop 1)).map fun lr =>
    let start_year := lr.1.yr
    let start_val := lr.1.fit * dist_dir
    let end_year := lr.2.yr
    let end_val := lr.2.fit * dist_dir
    let dur := end_year - start_year
    let mag := (end_val - start_val) * dist_dir
    { yod := start_year + 1, endYr := end_year, startVal := start_val,
      endVal := end_val, mag := mag, dur := dur,
      rate := eeDiv mag dur, dsnr := eeDiv mag rmse }

/-- Per-pixel `get_segment_data` (postprocess.py): index lookup with the
two-kind error taxonomy, `dist_dir` only applied when `right` is true,
then the segment channels over consecutive vertex pairs. -/
def get_segment_data (ltPix : List LTcol) (rmse : ℚ) (index : String)
    (right : Bool) : Except IndexErr (List Segment) :=
  match INDEX_DICT.lookup index with
  | none =>
      if index ∈ knownUnimplementedIndices then .error .notImplemented
      else .error .unrecognized
  | some index_info =>
      let dist_dir : ℚ := if right then (index_info.dist_dir : ℚ) else 1
      .ok (mkSegments (verticesOf ltPix) rmse dist_dir)

/-- The filter of `extract_deforestation_events`:
`start_years.gte(start_year).And(end_years.lte(end_year)).And(dsnr.gte(dsnr_threshold))`;
a masked dsnr fails the comparison. -/
def eventFilter (start_year end_year dsnr_threshold : ℚ) (s : Segment) : Bool :=
  decide (start_year ≤ s.yod) && decide (s.endYr ≤ end_year) &&
    (match s.dsnr with
     | some d => decide (dsnr_threshold ≤ d)
     | none => false)

/-- Stable insertion into a list ascending in `key` (helper of `sortAsc`). -/
def insertAsc {α K : Type} [LinearOrder K] (key : α → K) (a : α) : List α → List α
  | [] => [a]
  | b :: l => if key b ≤ key a then b :: insertAsc key a l else a :: b :: l

/-- Sorting ascending in a key by stable insertion.  Embeds both EE
`arraySort(keys)` on the per-pixel segment axis and the `sort()` of
`_create_yearly_list` (EE leaves tie order unspecified; no claim depends
on it, and keys are distinct in the year list). -/
def sortAsc {α K : Type} [LinearOrder K] (key : α → K) : List α → List α
  | [] => []
  | a :: l => insertAsc key a (sortAsc key l)

/-- Per-pixel `extract_deforestation_events` (postprocess.py): filter the
segment columns, sort by `start_years × (−1)` ascending (most recent first)
and keep the first column; `none` when no segment qualifies. -/
def extract_deforestation_events (LT_segments : List Segment)
    (start_year end_year dsnr_threshold : ℚ) : Option Segment :=
  (sortAsc (fun s => -s.yod)
    (LT_segments.filter (eventFilter start_year end_year dsnr_threshold))).head?

/-- Per-pixel `extract_deforested_regions` (postprocess.py):
`get_segment_data` with `right := true`, then the event selection.  The
final `arrayFlatten` projects the eight channels of the selected column to
eight named scalar bands, which per pixel is the identity on the record. -/
def extract_deforested_regions (ltPix : List LTcol) (rmse : ℚ) (index : String)
    (start_year end_year dsnr_threshold : ℚ) : Except IndexErr (Option Segment) := do
  let LT_segments ← get_segment_data ltPix rmse index true
  pure (extract_deforestation_events LT_segments start_year end_year dsnr_threshold)

/-- One per-pixel observation entering the medoid computation: acquisition
timestamp and the six canonical band values (maskable). -/
structure Obs where
  t : ℕ
  b : Fin 6 → Option ℚ

/-- EE `median` reducer over the unmasked values at one pixel/band: the
exact median for small inputs (mean of the two middle values for an even
count); masked when no value contributes. -/
def eeMedian (l : List ℚ) : Option ℚ :=
  if l.length = 0 then none
  else
    let s := sortAsc id l
    if l.length % 2 = 1 then some (s.getD (l.length / 2) 0)
    else some ((s.getD (l.length / 2 - 1) 0 + s.getD (l.length / 2) 0) / 2)

/-- Per-band median of `filtered_collection.median()` at one pixel: the
median of the unmasked values of that band across the filtered
observations. -/
def medianBand (obs : List Obs) (i : Fin 6) : Option ℚ :=
  eeMedian (obs.filterMap (fun o => o.b i))

/-- The per-band squared differences surviving the masked `subtract`/`pow`
of `_euclidean_distance`: a band contributes only when both the observation
band and the median band are unmasked. -/
def bandDiffs (med : Fin 6 → Option ℚ) (o : Obs) : List ℚ :=
  (List.finRange 6).filterMap fun i =>
    match o.b i, med i with
    | some x, some m => some ((x - m) ^ 2)
    | _, _ => none

/-- The `distance.reduce("sum")` band of `_euclidean_distance`: sum of the
unmasked squared differences, masked when no band contributes. -/
def euclidean_distance_sum (med : Fin 6 → Option ℚ) (o : Obs) : Option ℚ :=
  if bandDiffs med o = [] then none else some (bandDiffs med o).sum

/-- Whether all six bands of an observation are unmasked at this pixel. -/
def allBandsSome (o : Obs) : Bool :=
  (List.finRange 6).all fun i => (o.b i).isSome

/-- The 7-input tuples seen by `ee.Reducer.min(7)` at one pixel: for each
filtered observation, the distance band of `_euclidean_distance` followed by
the observation's own bands (`addBands(image)`).  A multi-input reducer
skips a tuple whenever any of its inputs is masked, so an observation with
any masked band is excluded from candidacy. -/
def candidatesOf (obs : List Obs) : List (ℚ × Obs) :=
  obs.filterMap fun o =>
    match euclidean_distance_sum (medianBand obs) o, allBandsSome o with
    | some d, true => some (d, o)
    | _, _ => none

/-- EE `ee.Reducer.min(7)` over the candidate tuples, in collection order:
keeps the tuple with the smallest first input; on ties the first minimal
tuple in collection order is kept (the reducer sees only the 7 numeric
inputs, so its tie rule cannot depend on acquisition metadata). -/
def minReduce7 : List (ℚ × Obs) → Option (ℚ × Obs)
  | [] => none
  | c :: cs =>
      match minReduce7 cs with
      | none => some c
      | some m => if m.1 < c.1 then some m else some c

/-- Per-pixel medoid selection of `_extract_medoid_image`: the min-reduction
over the distance-plus-bands tuples of the filtered observations. -/
def extract_medoid_pixel (obs : List Obs) : Option (ℚ × Obs) :=
  minReduce7 (candidatesOf obs)

/-- The six composite band values at one pixel (bands 1..6 of the
min(7)-reduced image, as selected by `build_SR_collection`): the band vector
of the selected observation, or all-masked when there is no candidate. -/
def medoid_bands (obs : List Obs) : Fin 6 → Option ℚ :=
  match extract_medoid_pixel obs with
  | none => fun _ => none
  | some c => c.2.b

/-- The spec-side per-pixel distance of a fully unmasked candidate: the sum
over all six bands of the squared difference to the per-band median.  Used
to compare the source's reduction with the spec's full-vector policy. -/
def fullDist (obs : List Obs) (o : Obs) : ℚ :=
  ((List.finRange 6).map fun i =>
    ((o.b i).getD 0 - (medianBand obs i).getD 0) ^ 2).sum

/-- One harmonized image of a time series: acquisition year, month-day
ordinal `md` (month*100+day, numerically ordered as the calendar), and the
per-pixel band values over the grid `P`. -/
structure SRImage (P : Type) where
  year : ℤ
  md : ℕ
  pix : P → Fin 6 → Option ℚ

/-- Total order key of an acquisition date (`system:time_start` order). -/
def timeKey {P : Type} (img : SRImage P) : ℤ :=
  img.year * 10000 + img.md

/-- The `collection.filterDate(start_date, end_date)` step of
`_extract_medoid_image`: keeps the images of the compositing year whose
month-day falls in the inclusive window (the source advances the end date
by one day, making `end_day` inclusive; the spec forbids wrapping
windows). -/
def filter_for_year {P : Type} (collection : List (SRImage P)) (year : ℤ)
    (startMd endMd : ℕ) : List (SRImage P) :=
  collection.filter fun img =>
    decide (img.year = year) && decide (startMd ≤ img.md) && decide (img.md ≤ endMd)

/-- The per-pixel observation list of a filtered single-year collection, in
collection order; within one year the month-day ordinal is the acquisition
timestamp order. -/
def obsAt {P : Type} (collection : List (SRImage P)) (p : P) : List Obs :=
  collection.map fun img => ⟨img.md, img.pix p⟩

/-- `_extract_medoid_image` (preprocess.py): filter the collection to the
year's window, take the per-pixel medoid, and stamp the composite with
January 1 of the year (`system:time_start`). -/
def extract_medoid_image {P : Type} (year : ℤ) (collection : List (SRImage P))
    (startMd endMd : ℕ) : SRImage P :=
  { year := year, md := 101,
    pix := fun p => medoid_bands (obsAt (filter_for_year collection year startMd endMd) p) }

/-- `_create_yearly_list`: the distinct years present in the collection,
sorted ascending (`distinct().sort()`). -/
def create_yearly_list {P : Type} (collection : List (SRImage P)) : List ℤ :=
  sortAsc id ((collection.map SRImage.year).dedup)

/-- `_generate_medoid_collection`: one medoid image per year present in the
input collection. -/
def generate_medoid_collection {P : Type} (collection : List (SRImage P))
    (startMd endMd : ℕ) : List (SRImage P) :=
  (create_yearly_list collection).map fun y =>
    extract_medoid_image y collection startMd endMd

/-- `_build_combined_Landsat` on already prepared per-sensor series:
`landsat5.merge(landsat7).merge(landsat8)`.  EE `merge` concatenates the
collections in order; nothing re-sorts or deduplicates. -/
def build_combined_Landsat {P : Type} (landsat5 landsat7 landsat8 : List (SRImage P)) :
    List (SRImage P) :=
  (landsat5 ++ landsat7) ++ landsat8

/-- The error the spec's §4.2 step 3 mandates for a compositing year with an
empty filtered observation set. -/
inductive DataError where
  | emptyYear
deriving DecidableEq

/-- Modelled from the spec: spec.md §4.2 step 3 requires the compositor to
report a DataError for a year whose filtered observation set is empty and
still emit an all-no-data composite; this error-reporting behavior is
missing from `_extract_medoid_image` (its comment punts and assumes a
non-empty collection).  This definition follows the spec's words, to be
compared with the source's `extract_medoid_image`. -/
def spec_extract_medoid_image {P : Type} (year : ℤ) (collection : List (SRImage P))
    (startMd endMd : ℕ) : Except DataError (SRImage P) :=
  if (filter_for_year collection year startMd endMd).isEmpty then
    .error .emptyYear
  else
    .ok (extract_medoid_image year collection startMd endMd)

/-- Concrete observation for the medoid tie-break analysis: later
acquisition (t = 10), all six bands 0. -/
def o1ex : Obs := ⟨10, fun _ => some 0⟩

/-- Concrete observation for the medoid tie-break analysis: earlier
acquisition (t = 3), all six bands 2. -/
def o2ex : Obs := ⟨3, fun _ => some 2⟩

/-- The spec's segment example as a LandTrendr vertex pixel:
vertices (year 2000, fitted 200) and (year 2005, fitted 50). -/
def exVertices : List LTcol :=
  [⟨2000, 2000, 200, true⟩, ⟨2005, 2005, 50, true⟩]

/-- The segment the code produces from `exVertices` with rmse 20 and
direction −1. -/
def exSeg : Segment :=
  { yod := 2001, endYr := 2005, startVal := -200, endVal := -50,
    mag := -150, dur := 5, rate := some (-30), dsnr := some (-7.5) }

/-- A one-image series whose only acquisition (January 15) lies outside the
default June 20 to September 10 compositing window. -/
def exColl : List (SRImage Unit) :=
  [⟨1990, 115, fun _ _ => some 0⟩]

/-- A September 1990 image, listed by the earlier sensor. -/
def c9a : SRImage Unit := ⟨1990, 900, fun _ _ => none⟩

/-- A June 1990 image, listed by the later sensor. -/
def c9b : SRImage Unit := ⟨1990, 620, fun _ _ => none⟩

section Helpers

/-- Truncation toward zero on `ℚ` agrees with floor for nonnegative
arguments and with ceiling for negative ones. -/
lemma ratTrunc_eq_floor_or_ceil (q : ℚ) :
    ratTrunc q = if 0 ≤ q then ⌊q⌋ else ⌈q⌉ := by
  rcases le_or_lt 0 q with h | h
  · rw [if_pos h]
    unfold ratTrunc
    rw [Rat.floor_def, Int.tdiv_eq_ediv (Rat.num_nonneg.mpr h) (by positivity)]
  · rw [if_neg (not_le.mpr h)]
    have hq : (0 : ℚ) ≤ -q := by linarith
    have hflo : ratTrunc (-q) = ⌊-q⌋ := by
      unfold ratTrunc
      rw [Rat.floor_def, Int.tdiv_eq_ediv (Rat.num_nonneg.mpr hq) (by positivity)]
    have hneg : ratTrunc q = -ratTrunc (-q) := by
      unfold ratTrunc
      rw [Rat.neg_num, Rat.neg_den, Int.neg_tdiv, neg_neg]
    rw [hneg, hflo, Int.floor_neg, neg_neg]

/-- The saturating cast is the plain truncation when the truncation lies in
the 16-bit signed range. -/
lemma toShort_of_inRange (q : ℚ) (h1 : -32768 ≤ ratTrunc q)
    (h2 : ratTrunc q ≤ 32767) : toShort q = ratTrunc q := by
  unfold toShort
  rw [min_eq_right h2, max_eq_right h1]

/-- Truncated value of the recalibration at the spec's example input. -/
lemma harm_ex_trunc : ratTrunc (((5000 : ℚ) - intercepts 0 * 10000) / slopes 0) = 5206 := by
  have hq : ((5000 : ℚ) - intercepts 0 * 10000) / slopes 0 = 10190000 / 1957 := by
    simp [intercepts, slopes]
    norm_num
  rw [ratTrunc_eq_floor_or_ceil, hq, if_pos (by norm_num)]
  norm_num

/-- Value of the harmonization at the spec's example input: band B1
(slope 0.9785, intercept −0.0095), digital number 5000. -/
lemma harmonization_Roy_ex : harmonization_Roy 0 5000 = 5206 := by
  unfold harmonization_Roy
  rw [toShort_of_inRange _ (by rw [harm_ex_trunc]; norm_num)
    (by rw [harm_ex_trunc]; norm_num), harm_ex_trunc]

/-- The `INDEX_DICT` lookup resolves exactly the two implemented names. -/
lemma INDEX_DICT_lookup_eq (s : String) :
    INDEX_DICT.lookup s =
      if s = "NDVI" then some ⟨-1, ["B4", "B3"]⟩
      else if s = "NBR" then some ⟨-1, ["B4", "B7"]⟩ else none := by
  by_cases h1 : s = "NDVI"
  · simp [INDEX_DICT, List.lookup, h1]
  · have b1 : (s == "NDVI") = false := beq_eq_false_iff_ne.mpr h1
    by_cases h2 : s = "NBR"
    · simp only [INDEX_DICT, List.lookup]
      rw [b1]
      simp [h1, h2]
    · have b2 : (s == "NBR") = false := beq_eq_false_iff_ne.mpr h2
      simp only [INDEX_DICT, List.lookup]
      rw [b1, b2]
      simp [h1, h2]

end Helpers

/-- Claim C4 (corrected): for OLI band B1 with slope 0.9785 and intercept
−0.0095, input digital number 5000 gives (5000 − (−0.0095·10000)) / 0.9785
= 5095 / 0.9785 ≈ 5206.95, which truncates toward zero to 5206 — not to
5207 as the claim states (the claim's ≈ 5207.97 miscomputes the division). -/
theorem C4_counterexample :
    harmonization_Roy 0 5000 = 5206 ∧ harmonization_Roy 0 5000 ≠ 5207 := by
  refine ⟨harmonization_Roy_ex, ?_⟩
  rw [harmonization_Roy_ex]
  decide

/-- Claim C4 as amended: for every band and input whose recalibrated value
truncates into the 16-bit signed range, the harmonized output is
(x − intercept·10000) / slope truncated toward zero (floor for nonnegative
values, ceiling for negative ones, never rounding), and the documented
example input 5000 on band B1 produces exactly 5206. -/
theorem C4_amended (i : Fin 6) (x : ℚ)
    (h1 : -32768 ≤ ratTrunc ((x - intercepts i * 10000) / slopes i))
    (h2 : ratTrunc ((x - intercepts i * 10000) / slopes i) ≤ 32767) :
    harmonization_Roy i x =
      (if 0 ≤ (x - intercepts i * 10000) / slopes i
        then ⌊(x - intercepts i * 10000) / slopes i⌋
        else ⌈(x - intercepts i * 10000) / slopes i⌉) ∧
    harmonization_Roy 0 5000 = 5206 := by
  refine ⟨?_, harmonization_Roy_ex⟩
  unfold harmonization_Roy
  rw [toShort_of_inRange _ h1 h2, ratTrunc_eq_floor_or_ceil]

/-- Witness for C4_amended at band B1 and input 5000. -/
theorem C4_witness :
    harmonization_Roy 0 5000 =
      (if 0 ≤ ((5000 : ℚ) - intercepts 0 * 10000) / slopes 0
        then ⌊((5000 : ℚ) - intercepts 0 * 10000) / slopes 0⌋
        else ⌈((5000 : ℚ) - intercepts 0 * 10000) / slopes 0⌉) ∧
    harmonization_Roy 0 5000 = 5206 :=
  C4_amended 0 5000
    (by rw [harm_ex_trunc]; norm_num)
    (by rw [harm_ex_trunc]; norm_num)

/-- Claim C7 (confirmed): for a requested index in the
known-but-unimplemented set, both `build_LT_collection` and
`get_segment_data` raise the unimplemented-feature error
(NotImplementedError); for any other name outside NDVI and NBR both raise
the distinct unrecognized-index error (RuntimeError); NDVI and NBR raise
neither. -/
theorem C7_error_taxonomy (index : String) (ltPix : List LTcol) (rmse : ℚ)
    (right : Bool) (coll : List PixBands) (ftv_list : List (Fin 6)) :
    (index ∈ knownUnimplementedIndices →
      get_segment_data ltPix rmse index right = .error .notImplemented ∧
      build_LT_collection coll index ftv_list = .error .notImplemented) ∧
    ((index ∉ knownUnimplementedIndices ∧ index ≠ "NDVI" ∧ index ≠ "NBR") →
      get_segment_data ltPix rmse index right = .error .unrecognized ∧
      build_LT_collection coll index ftv_list = .error .unrecognized) ∧
    ((index = "NDVI" ∨ index = "NBR") →
      (∃ v, get_segment_data ltPix rmse index right = .ok v) ∧
      (∃ v, build_LT_collection coll index ftv_list = .ok v)) := by
  refine ⟨?_, ?_, ?_⟩
  · intro hm
    have hne : index ≠ "NDVI" ∧ index ≠ "NBR" := by
      simp only [knownUnimplementedIndices, List.mem_cons, List.not_mem_nil, or_false] at hm
      rcases hm with rfl | rfl | rfl | rfl | rfl | rfl | rfl <;> exact ⟨by decide, by decide⟩
    constructor <;>
      simp [get_segment_data, build_LT_collection, INDEX_DICT_lookup_eq, hne.1, hne.2, hm]
  · rintro ⟨hm, h1, h2⟩
    constructor <;>
      simp [get_segment_data, build_LT_collection, INDEX_DICT_lookup_eq, h1, h2, hm]
  · rintro (rfl | rfl) <;> exact ⟨⟨_, rfl⟩, ⟨_, rfl⟩⟩

/-- Witness for C7_error_taxonomy: TCB (recognized, unimplemented), FOO
(unrecognized), NDVI (implemented). -/
theorem C7_witness :
    (get_segment_data [] 0 "TCB" true = .error .notImplemented ∧
      build_LT_collection [] "TCB" [] = .error .notImplemented) ∧
    (get_segment_data [] 0 "FOO" true = .error .unrecognized ∧
      build_LT_collection [] "FOO" [] = .error .unrecognized) ∧
    (∃ v, get_segment_data [] 0 "NDVI" true = .ok v) :=
  ⟨(C7_error_taxonomy "TCB" [] 0 true [] []).1 (by decide),
   (C7_error_taxonomy "FOO" [] 0 true [] []).2.1 ⟨by decide, by decide, by decide⟩,
   ((C7_error_taxonomy "NDVI" [] 0 true [] []).2.2 (Or.inl rfl)).1⟩

/-- Claim C8 (corrected): `updateMask` conjoins masks, so a harmonized
pixel is no-data if and only if it was already no-data in the input OR one
of QA bits 2 (water), 3 (cloud shadow), 4 (snow), 5 (cloud) is set;
input-valid pixels with all four bits clear keep their band values, the
invalidation is in place and the grid shape (the index type P) is unchanged
by construction. -/
theorem C8_mask_amended {P : Type} (img : P → RawPixel) (p : P) (i : Fin 6) :
    (mask_landsat_sr_image img p i = none ↔
      ((img p).bands i = none ∨ qaMaskOk (img p).qa = false)) ∧
    (qaMaskOk (img p).qa = true → mask_landsat_sr_image img p i = (img p).bands i) ∧
    (qaMaskOk (img p).qa = true ↔
      ((img p).qa &&& (1 <<< 2) = 0 ∧ (img p).qa &&& (1 <<< 3) = 0 ∧
        (img p).qa &&& (1 <<< 4) = 0 ∧ (img p).qa &&& (1 <<< 5) = 0)) := by
  unfold mask_landsat_sr_image mask_landsat_sr
  refine ⟨?_, ?_, ?_⟩
  · by_cases h : qaMaskOk (img p).qa = true <;>
      simp [h, Bool.not_eq_true] at *
  · intro h
    simp [h]
  · simp [qaMaskOk, Bool.and_eq_true, beq_iff_eq, and_assoc]

/-- Counterexample to claim C8 as stated: a pixel that is already masked in
the input product (every Landsat 7 SLC-off gap and scene-edge fill pixel is)
with QA value 1 (only the fill bit set) stays entirely no-data after
masking, although all four of bits 2, 3, 4 and 5 are clear — so no-data is
not equivalent to one of those bits being set. -/
theorem C8_counterexample :
    ((List.finRange 6).all fun i =>
        (mask_landsat_sr ⟨fun _ => none, 1⟩ i).isNone) = true ∧
    qaMaskOk 1 = true := by
  exact ⟨by decide, by decide⟩

/-- Witness for C8_mask_amended: a valid pixel with QA 0 keeps its band
value. -/
theorem C8_witness :
    mask_landsat_sr_image (fun _ : Unit => ⟨fun _ => some 7, 0⟩) () 0 =
      (⟨fun _ => some 7, (0 : ℕ)⟩ : RawPixel).bands 0 :=
  (C8_mask_amended (fun _ : Unit => ⟨fun _ => some 7, 0⟩) () 0).2.1 (by decide)

/-- Claim C9 as amended: the merged multi-sensor series contains exactly
the observations of the three input series — no deduplication and no
overlap resolution, two observations with the same date are both retained —
in concatenated sensor-major order (Landsat 5, then 7, then 8); the result
is NOT re-sorted by timestamp.  Stated via occurrence counts under every
predicate, which fixes the multiset of retained observations. -/
theorem C9_merge_amended {P : Type} (landsat5 landsat7 landsat8 : List (SRImage P))
    (pred : SRImage P → Bool) :
    (build_combined_Landsat landsat5 landsat7 landsat8).countP pred =
      landsat5.countP pred + landsat7.countP pred + landsat8.countP pred := by
  simp [build_combined_Landsat, List.countP_append, Nat.add_assoc]

/-- Counterexample to claim C9 as stated: merging a Landsat 5 series whose
only image is from September 1990 with a Landsat 7 series whose only image
is from June 1990 yields the concatenation [September, June], which is not
ordered by ascending timestamp. -/
theorem C9_counterexample :
    (build_combined_Landsat [c9a] [c9b] []).map timeKey = [19900900, 19900620] ∧
    ¬ ((19900900 : ℤ) ≤ 19900620) := by
  exact ⟨by decide, by decide⟩

section SegmentHelpers

/-- `get_segment_data` produces one segment per consecutive vertex pair. -/
lemma mkSegments_length (v : List LTcol) (rmse dist_dir : ℚ) :
    (mkSegments v rmse dist_dir).length = v.length - 1 := by
  simp [mkSegments, List.length_zip, List.length_dropLast, List.length_drop]

/-- Componentwise value of the k-th segment of `mkSegments`. -/
lemma mkSegments_get (v : List LTcol) (rmse dist_dir : ℚ) (k : ℕ)
    (hk1 : k < v.length) (hk : k + 1 < v.length)
    (hk2 : k < (mkSegments v rmse dist_dir).length) :
    (mkSegments v rmse dist_dir).get ⟨k, hk2⟩ =
      { yod := (v.get ⟨k, hk1⟩).yr + 1,
        endYr := (v.get ⟨k + 1, hk⟩).yr,
        startVal := (v.get ⟨k, hk1⟩).fit * dist_dir,
        endVal := (v.get ⟨k + 1, hk⟩).fit * dist_dir,
        mag := ((v.get ⟨k + 1, hk⟩).fit * dist_dir - (v.get ⟨k, hk1⟩).fit * dist_dir) * dist_dir,
        dur := (v.get ⟨k + 1, hk⟩).yr - (v.get ⟨k, hk1⟩).yr,
        rate := eeDiv (((v.get ⟨k + 1, hk⟩).fit * dist_dir - (v.get ⟨k, hk1⟩).fit * dist_dir) * dist_dir)
          ((v.get ⟨k + 1, hk⟩).yr - (v.get ⟨k, hk1⟩).yr),
        dsnr := eeDiv (((v.get ⟨k + 1, hk⟩).fit * dist_dir - (v.get ⟨k, hk1⟩).fit * dist_dir) * dist_dir)
          rmse } := by
  have hzip : k < (v.dropLast.zip (v.drop 1)).length := by
    simpa [List.length_zip, List.length_dropLast, List.length_drop] using
      (by omega : k < v.length - 1)
  simp only [mkSegments, List.get_eq_getElem, List.getElem_map, List.getElem_zip,
    List.getElem_dropLast, List.getElem_drop]
  have h1k : 1 + k = k + 1 := by omega
  simp [h1k]

/-- Membership in a stable ascending insertion. -/
lemma mem_insertAsc {α K : Type} [LinearOrder K] (key : α → K) (a x : α)
    (l : List α) : x ∈ insertAsc key a l ↔ x = a ∨ x ∈ l := by
  induction l with
  | nil => simp [insertAsc]
  | cons b t ih =>
      by_cases h : key b ≤ key a
      all_goals simp [insertAsc, h, ih]
      all_goals try tauto

/-- Insertion never yields the empty list. -/
lemma insertAsc_ne_nil {α K : Type} [LinearOrder K] (key : α → K) (a : α)
    (l : List α) : insertAsc key a l ≠ [] := by
  cases l with
  | nil => simp [insertAsc]
  | cons b t => by_cases h : key b ≤ key a <;> simp [insertAsc, h]

/-- Sorting preserves emptiness. -/
lemma sortAsc_eq_nil_iff {α K : Type} [LinearOrder K] (key : α → K)
    (l : List α) : sortAsc key l = [] ↔ l = [] := by
  cases l with
  | nil => simp [sortAsc]
  | cons a t => simp [sortAsc, insertAsc_ne_nil]

/-- Sorting preserves membership. -/
lemma mem_sortAsc {α K : Type} [LinearOrder K] (key : α → K) (x : α)
    (l : List α) : x ∈ sortAsc key l ↔ x ∈ l := by
  induction l with
  | nil => simp [sortAsc]
  | cons a t ih => simp [sortAsc, mem_insertAsc, ih]

/-- The head of an ascending sort is a member attaining the minimal key. -/
lemma sortAsc_head_min {α K : Type} [LinearOrder K] (key : α → K)
    (l : List α) (s : α) (h : (sortAsc key l).head? = some s) :
    s ∈ l ∧ ∀ t ∈ l, key s ≤ key t := by
  induction l generalizing s with
  | nil => simp [sortAsc] at h
  | cons a t ih =>
      cases hst : sortAsc key t with
      | nil =>
          have ht : t = [] := (sortAsc_eq_nil_iff key t).mp hst
          subst ht
          simp only [sortAsc, insertAsc, List.head?_cons, Option.some.injEq] at h
          subst h
          simp
      | cons m ms =>
          have hm := ih m (by rw [hst]; rfl)
          rw [show sortAsc key (a :: t) = insertAsc key a (sortAsc key t) from rfl,
            hst] at h
          by_cases hc : key m ≤ key a
          · rw [insertAsc, if_pos hc] at h
            simp only [List.head?_cons, Option.some.injEq] at h
            subst h
            refine ⟨List.mem_cons_of_mem a hm.1, fun u hu => ?_⟩
            rcases List.mem_cons.mp hu with rfl | hu2
            · exact hc
            · exact hm.2 u hu2
          · rw [insertAsc, if_neg hc] at h
            simp only [List.head?_cons, Option.some.injEq] at h
            subst h
            refine ⟨List.mem_cons_self a t, fun u hu => ?_⟩
            rcases List.mem_cons.mp hu with rfl | hu2
            · exact le_refl _
            · exact ((not_le.mp hc).le).trans (hm.2 u hu2)

/-- A segment passing the event filter satisfies the three bounds. -/
lemma eventFilter_spec (lo hi τ : ℚ) (s : Segment)
    (h : eventFilter lo hi τ s = true) :
    lo ≤ s.yod ∧ s.endYr ≤ hi ∧ ∃ d, s.dsnr = some d ∧ τ ≤ d := by
  simp only [eventFilter, Bool.and_eq_true, decide_eq_true_eq] at h
  refine ⟨h.1.1, h.1.2, ?_⟩
  cases hd : s.dsnr with
  | none => rw [hd] at h; simp at h
  | some d =>
      rw [hd] at h
      simp only [decide_eq_true_eq] at h
      exact ⟨d, rfl, h.2⟩

/-- For an implemented index, `get_segment_data` succeeds with the segment
list built from the vertex columns, with direction −1 exactly when
orientation correction is requested. -/
lemma gsd_eq_impl (ltPix : List LTcol) (rmse : ℚ) (right : Bool) (index : String)
    (hidx : index = "NDVI" ∨ index = "NBR") :
    get_segment_data ltPix rmse index right =
      .ok (mkSegments (verticesOf ltPix) rmse (if right then -1 else 1)) := by
  have hc : ((-1 : ℤ) : ℚ) = -1 := by norm_num
  rcases hidx with rfl | rfl <;>
  · show Except.ok (mkSegments (verticesOf ltPix) rmse
        (if right then ((-1 : ℤ) : ℚ) else 1)) = _
    rw [hc]

/-- Concrete run of the segment extractor on the spec's example. -/
lemma gsd_exVertices :
    get_segment_data exVertices 20 "NDVI" true = .ok [exSeg] := by
  have hfil : verticesOf exVertices = exVertices := by
    simp [verticesOf, exVertices]
  simp only [get_segment_data, INDEX_DICT_lookup_eq, if_pos rfl, hfil]
  simp only [exVertices, mkSegments, List.dropLast, List.drop, List.zip,
    List.zipWith, List.map, exSeg, eeDiv]
  norm_num

/-- The event filter accepts the example segment for the window
[1990, 2020] at threshold −10. -/
lemma eventFilter_exSeg : eventFilter 1990 2020 (-10) exSeg = true := by
  simp only [eventFilter, exSeg, Bool.and_eq_true, decide_eq_true_eq]
  norm_num

/-- Concrete run of the event selector on the example segment list. -/
lemma events_exSeg :
    extract_deforestation_events [exSeg] 1990 2020 (-10) = some exSeg := by
  simp [extract_deforestation_events, List.filter, eventFilter_exSeg,
    sortAsc, insertAsc]

end SegmentHelpers

/-- Counterexample to claim C2 as stated: on the spec's own example —
vertices (2000, 200), (2005, 50), dir −1 (NDVI with orientation
correction), rmse 20 — the code emits duration 5 and rate −30, not the
claimed duration 4 = end_year − start_year and rate −37.5: `dur` is
computed from the unshifted vertex years before the start year is shifted
by one. -/
theorem C2_counterexample :
    get_segment_data exVertices 20 "NDVI" true = .ok [exSeg] ∧
    exSeg.yod = 2001 ∧ exSeg.endYr = 2005 ∧ exSeg.startVal = -200 ∧
    exSeg.endVal = -50 ∧ exSeg.mag = -150 ∧ exSeg.dsnr = some (-7.5) ∧
    exSeg.dur = 5 ∧ exSeg.dur ≠ 4 ∧
    exSeg.rate = some (-30) ∧ exSeg.rate ≠ some (-37.5) := by
  refine ⟨gsd_exVertices, rfl, rfl, rfl, rfl, rfl, rfl, rfl, ?_, rfl, ?_⟩
  · norm_num [exSeg]
  · norm_num [exSeg]

/-- Claim C2 as amended: for every vertex sequence of length N ≥ 2,
residual rmse and direction dir (the index's sign −1 when orientation
correction is requested, else +1), the extractor yields exactly N−1
segments with start_year = v_i.year + 1, end_year = v_{i+1}.year,
start_val = v_i.value·dir, end_val = v_{i+1}.value·dir,
magnitude = (end_val − start_val)·dir, duration = v_{i+1}.year − v_i.year
(one more than end_year − start_year of the emitted record),
rate = magnitude / duration (no-data when duration = 0) and
signal-to-noise = magnitude / rmse (no-data when rmse = 0); the spec's
example thus yields duration 5 and rate −30. -/
theorem C2_segment_amended (ltPix : List LTcol) (rmse : ℚ) (index : String)
    (right : Bool) (hidx : index = "NDVI" ∨ index = "NBR") :
    ∃ segs, get_segment_data ltPix rmse index right = .ok segs ∧
      segs.length = (verticesOf ltPix).length - 1 ∧
      ∀ (k : ℕ) (hk1 : k < (verticesOf ltPix).length)
        (hk : k + 1 < (verticesOf ltPix).length) (hk2 : k < segs.length),
        (segs.get ⟨k, hk2⟩).yod = ((verticesOf ltPix).get ⟨k, hk1⟩).yr + 1 ∧
        (segs.get ⟨k, hk2⟩).endYr = ((verticesOf ltPix).get ⟨k + 1, hk⟩).yr ∧
        (segs.get ⟨k, hk2⟩).startVal =
          ((verticesOf ltPix).get ⟨k, hk1⟩).fit * (if right then -1 else 1) ∧
        (segs.get ⟨k, hk2⟩).endVal =
          ((verticesOf ltPix).get ⟨k + 1, hk⟩).fit * (if right then -1 else 1) ∧
        (segs.get ⟨k, hk2⟩).mag =
          ((segs.get ⟨k, hk2⟩).endVal - (segs.get ⟨k, hk2⟩).startVal) *
            (if right then -1 else 1) ∧
        (segs.get ⟨k, hk2⟩).dur =
          ((verticesOf ltPix).get ⟨k + 1, hk⟩).yr - ((verticesOf ltPix).get ⟨k, hk1⟩).yr ∧
        ((segs.get ⟨k, hk2⟩).dur ≠ 0 →
          (segs.get ⟨k, hk2⟩).rate =
            some ((segs.get ⟨k, hk2⟩).mag / (segs.get ⟨k, hk2⟩).dur)) ∧
        ((segs.get ⟨k, hk2⟩).dur = 0 → (segs.get ⟨k, hk2⟩).rate = none) ∧
        (rmse ≠ 0 → (segs.get ⟨k, hk2⟩).dsnr = some ((segs.get ⟨k, hk2⟩).mag / rmse)) ∧
        (rmse = 0 → (segs.get ⟨k, hk2⟩).dsnr = none) := by
  rw [gsd_eq_impl ltPix rmse right index hidx]
  refine ⟨_, rfl, mkSegments_length _ _ _, ?_⟩
  intro k hk1 hk hk2
  rw [mkSegments_get (verticesOf ltPix) rmse _ k hk1 hk hk2]
  refine ⟨rfl, rfl, rfl, rfl, rfl, rfl, ?_, ?_, ?_, ?_⟩
  · intro hne
    show eeDiv _ _ = _
    rw [eeDiv, if_neg hne]
  · intro hz
    show eeDiv _ _ = _
    rw [eeDiv, if_pos hz]
  · intro hne
    show eeDiv _ _ = _
    rw [eeDiv, if_neg hne]
  · intro hz
    show eeDiv _ _ = _
    rw [eeDiv, if_pos hz]

/-- Witness for C2_segment_amended on the spec's example input. -/
theorem C2_witness :
    ∃ segs, get_segment_data exVertices 20 "NDVI" true = .ok segs ∧
      segs.length = (verticesOf exVertices).length - 1 ∧
      ∀ (k : ℕ) (hk1 : k < (verticesOf exVertices).length)
        (hk : k + 1 < (verticesOf exVertices).length) (hk2 : k < segs.length),
        (segs.get ⟨k, hk2⟩).yod = ((verticesOf exVertices).get ⟨k, hk1⟩).yr + 1 ∧
        (segs.get ⟨k, hk2⟩).endYr = ((verticesOf exVertices).get ⟨k + 1, hk⟩).yr ∧
        (segs.get ⟨k, hk2⟩).startVal =
          ((verticesOf exVertices).get ⟨k, hk1⟩).fit * (if true then -1 else 1) ∧
        (segs.get ⟨k, hk2⟩).endVal =
          ((verticesOf exVertices).get ⟨k + 1, hk⟩).fit * (if true then -1 else 1) ∧
        (segs.get ⟨k, hk2⟩).mag =
          ((segs.get ⟨k, hk2⟩).endVal - (segs.get ⟨k, hk2⟩).startVal) *
            (if true then -1 else 1) ∧
        (segs.get ⟨k, hk2⟩).dur =
          ((verticesOf exVertices).get ⟨k + 1, hk⟩).yr -
            ((verticesOf exVertices).get ⟨k, hk1⟩).yr ∧
        ((segs.get ⟨k, hk2⟩).dur ≠ 0 →
          (segs.get ⟨k, hk2⟩).rate =
            some ((segs.get ⟨k, hk2⟩).mag / (segs.get ⟨k, hk2⟩).dur)) ∧
        ((segs.get ⟨k, hk2⟩).dur = 0 → (segs.get ⟨k, hk2⟩).rate = none) ∧
        ((20 : ℚ) ≠ 0 → (segs.get ⟨k, hk2⟩).dsnr = some ((segs.get ⟨k, hk2⟩).mag / 20)) ∧
        ((20 : ℚ) = 0 → (segs.get ⟨k, hk2⟩).dsnr = none) :=
  C2_segment_amended exVertices 20 "NDVI" true (Or.inl rfl)

/-- Claim C3 (confirmed): the event selector emits at most one segment per
pixel (its per-pixel output is an `Option`); an emitted segment comes from
the input list, satisfies start_year ≥ lo, end_year ≤ hi and
signal-to-noise ≥ τ, and has maximal start_year among the retained
segments; when no segment qualifies the output is the no-data value `none`
and no error is raised (the selector is a total function). -/
theorem C3_event_selector (segs : List Segment) (lo hi τ : ℚ) :
    (extract_deforestation_events segs lo hi τ = none ↔
      segs.filter (eventFilter lo hi τ) = []) ∧
    ∀ s, extract_deforestation_events segs lo hi τ = some s →
      s ∈ segs ∧ lo ≤ s.yod ∧ s.endYr ≤ hi ∧
      (∃ d, s.dsnr = some d ∧ τ ≤ d) ∧
      ∀ t ∈ segs.filter (eventFilter lo hi τ), t.yod ≤ s.yod := by
  constructor
  · show ((sortAsc (fun s => -s.yod) (segs.filter (eventFilter lo hi τ))).head? = none) ↔ _
    rw [List.head?_eq_none_iff, sortAsc_eq_nil_iff]
  · intro s hs
    replace hs : (sortAsc (fun s => -s.yod)
        (segs.filter (eventFilter lo hi τ))).head? = some s := hs
    have hmin := sortAsc_head_min (fun s => -s.yod)
      (segs.filter (eventFilter lo hi τ)) s hs
    have hmem : s ∈ segs := List.mem_of_mem_filter hmin.1
    have hfil : eventFilter lo hi τ s = true := List.of_mem_filter hmin.1
    have hspec := eventFilter_spec lo hi τ s hfil
    refine ⟨hmem, hspec.1, hspec.2.1, hspec.2.2, fun t ht => ?_⟩
    have := hmin.2 t ht
    simpa using this

/-- Witness for C3_event_selector on a singleton qualifying segment. -/
theorem C3_witness :
    exSeg ∈ [exSeg] ∧ (1990 : ℚ) ≤ exSeg.yod ∧ exSeg.endYr ≤ 2020 ∧
    (∃ d, exSeg.dsnr = some d ∧ (-10 : ℚ) ≤ d) ∧
    ∀ t ∈ [exSeg].filter (eventFilter 1990 2020 (-10)), t.yod ≤ exSeg.yod :=
  (C3_event_selector [exSeg] 1990 2020 (-10)).2 exSeg events_exSeg

/-- Claim C10 (confirmed): `extract_deforested_regions` always calls
`get_segment_data` with `right := true`, so for both supported indices
(NDVI and NBR, direction sign −1) the start and end values of the selected
per-pixel event record are the fitted vertex values multiplied by −1. -/
theorem C10_orientation (ltPix : List LTcol) (rmse : ℚ) (index : String)
    (lo hi τ : ℚ) (s : Segment)
    (hidx : index = "NDVI" ∨ index = "NBR")
    (hs : extract_deforested_regions ltPix rmse index lo hi τ = .ok (some s)) :
    ∃ (k : ℕ) (hk : k + 1 < (verticesOf ltPix).length),
      s.startVal = -((verticesOf ltPix).get ⟨k, Nat.lt_of_succ_lt hk⟩).fit ∧
      s.endVal = -((verticesOf ltPix).get ⟨k + 1, hk⟩).fit := by
  have hbind : extract_deforested_regions ltPix rmse index lo hi τ =
      Except.ok (extract_deforestation_events
        (mkSegments (verticesOf ltPix) rmse (-1)) lo hi τ) := by
    simp only [extract_deforested_regions, bind, Except.bind,
      gsd_eq_impl ltPix rmse true index hidx]
    rfl
  rw [hbind] at hs
  have hsev : extract_deforestation_events
      (mkSegments (verticesOf ltPix) rmse (-1)) lo hi τ = some s := by
    simpa using hs
  replace hsev : (sortAsc (fun t => -t.yod)
      ((mkSegments (verticesOf ltPix) rmse (-1)).filter
        (eventFilter lo hi τ))).head? = some s := hsev
  have hmin := sortAsc_head_min (fun t => -t.yod)
    ((mkSegments (verticesOf ltPix) rmse (-1)).filter
      (eventFilter lo hi τ)) s hsev
  have hmem : s ∈ mkSegments (verticesOf ltPix) rmse (-1) :=
    List.mem_of_mem_filter hmin.1
  rcases List.mem_iff_getElem.mp hmem with ⟨k, hk2, hgetk⟩
  have hk : k + 1 < (verticesOf ltPix).length := by
    have := mkSegments_length (verticesOf ltPix) rmse (-1 : ℚ)
    omega
  refine ⟨k, hk, ?_, ?_⟩ <;>
  · rw [← hgetk]
    rw [show (mkSegments (verticesOf ltPix) rmse (-1))[k] =
        (mkSegments (verticesOf ltPix) rmse (-1)).get ⟨k, hk2⟩ from rfl,
      mkSegments_get (verticesOf ltPix) rmse _ k (Nat.lt_of_succ_lt hk) hk hk2]
    ring

/-- Witness for C10_orientation on the example pixel: the selected event's
start and end values are the negated fitted vertex values. -/
theorem C10_witness :
    ∃ (k : ℕ) (hk : k + 1 < (verticesOf exVertices).length),
      exSeg.startVal = -((verticesOf exVertices).get ⟨k, Nat.lt_of_succ_lt hk⟩).fit ∧
      exSeg.endVal = -((verticesOf exVertices).get ⟨k + 1, hk⟩).fit :=
  C10_orientation exVertices 20 "NDVI" 1990 2020 (-10) exSeg (Or.inl rfl)
    (by simp only [extract_deforested_regions, bind, Except.bind, gsd_exVertices]
        show Except.ok (extract_deforestation_events [exSeg] 1990 2020 (-10)) = _
        rw [events_exSeg])

section MedoidHelpers

/-- The min(7) reduction is empty exactly on an empty candidate list. -/
lemma minReduce7_eq_none_iff (l : List (ℚ × Obs)) :
    minReduce7 l = none ↔ l = [] := by
  cases l with
  | nil => simp [minReduce7]
  | cons c cs =>
      rw [minReduce7]
      cases hm : minReduce7 cs
      · simp
      · simp only [List.cons_ne_nil, iff_false]
        split <;> simp

/-- The min(7) reduction returns the first candidate attaining the minimal
distance: it is a list element, no candidate has a smaller first component,
and every candidate strictly before it has a strictly larger one. -/
lemma minReduce7_spec (l : List (ℚ × Obs)) (m : ℚ × Obs)
    (h : minReduce7 l = some m) :
    ∃ (k : ℕ) (hk : k < l.length),
      l.get ⟨k, hk⟩ = m ∧
      (∀ (j : ℕ) (hj : j < l.length), m.1 ≤ (l.get ⟨j, hj⟩).1) ∧
      (∀ (j : ℕ), j < k → ∀ (hj : j < l.length), m.1 < (l.get ⟨j, hj⟩).1) := by
  induction l generalizing m with
  | nil => simp [minReduce7] at h
  | cons c cs ih =>
      rw [minReduce7] at h
      cases hm : minReduce7 cs with
      | none =>
          rw [hm] at h
          have hcs : cs = [] := (minReduce7_eq_none_iff cs).mp hm
          subst hcs
          simp only [Option.some.injEq] at h
          subst h
          refine ⟨0, by simp, rfl, ?_, fun j hj0 => absurd hj0 (Nat.not_lt_zero j)⟩
          intro j hj
          have hj0 : j = 0 := by
            simp at hj
            omega
          subst hj0
          exact le_refl _
      | some m2 =>
          rw [hm] at h
          replace h : (if m2.1 < c.1 then some m2 else some c) = some m := h
          by_cases hlt : m2.1 < c.1
          · rw [if_pos hlt] at h
            simp only [Option.some.injEq] at h
            subst h
            obtain ⟨k, hk, hget, hmin, hstrict⟩ := ih _ hm
            refine ⟨k + 1, by simpa using Nat.succ_lt_succ hk, ?_, ?_, ?_⟩
            · exact hget
            · intro j hj
              cases j with
              | zero => exact hlt.le
              | succ j2 => exact hmin j2 (by simpa using Nat.lt_of_succ_lt_succ hj)
            · intro j hj0 hj
              cases j with
              | zero => exact hlt
              | succ j2 =>
                  exact hstrict j2 (Nat.lt_of_succ_lt_succ hj0)
                    (by simpa using Nat.lt_of_succ_lt_succ hj)
          · rw [if_neg hlt] at h
            simp only [Option.some.injEq] at h
            subst h
            obtain ⟨k, hk, hget, hmin, _⟩ := ih m2 hm
            refine ⟨0, by simp, rfl, ?_, fun j hj0 => absurd hj0 (Nat.not_lt_zero j)⟩
            intro j hj
            cases j with
            | zero => exact le_refl _
            | succ j2 =>
                exact (not_lt.mp hlt).trans (hmin j2 (by simpa using Nat.lt_of_succ_lt_succ hj))

/-- A pointwise-total `filterMap` is a `map`. -/
lemma filterMap_eq_map_of_forall {α β : Type} (f : α → Option β) (g : α → β)
    (l : List α) (h : ∀ a ∈ l, f a = some (g a)) :
    l.filterMap f = l.map g := by
  induction l with
  | nil => simp
  | cons a t ih =>
      rw [List.filterMap_cons, h a (List.mem_cons_self a t), List.map_cons,
        ih fun b hb => h b (List.mem_cons_of_mem a hb)]

/-- The EE median of a nonempty value list is unmasked. -/
lemma eeMedian_isSome (l : List ℚ) (h : l ≠ []) : ∃ m, eeMedian l = some m := by
  rw [eeMedian, if_neg (by simpa using h)]
  split
  · exact ⟨_, rfl⟩
  · exact ⟨_, rfl⟩

/-- A band unmasked in some contributing observation has an unmasked
per-band median. -/
lemma medianBand_isSome (obs : List Obs) (o : Obs) (i : Fin 6) (x : ℚ)
    (ho : o ∈ obs) (hb : o.b i = some x) :
    ∃ m, medianBand obs i = some m := by
  apply eeMedian_isSome
  intro hnil
  have : x ∈ obs.filterMap (fun o => o.b i) :=
    List.mem_filterMap.mpr ⟨o, ho, hb⟩
  rw [hnil] at this
  simp at this

/-- For a fully unmasked observation of the filtered set, every band
contributes, and the distance band is the full 6-band squared Euclidean
distance to the per-band medians. -/
lemma dist_of_allBandsSome (obs : List Obs) (o : Obs) (ho : o ∈ obs)
    (h : allBandsSome o = true) :
    euclidean_distance_sum (medianBand obs) o = some (fullDist obs o) := by
  have hb : ∀ i : Fin 6, ∃ x, o.b i = some x := by
    intro i
    have := (List.all_eq_true.mp h) i (List.mem_finRange i)
    exact Option.isSome_iff_exists.mp this
  have hdiffs : bandDiffs (medianBand obs) o =
      (List.finRange 6).map fun i =>
        ((o.b i).getD 0 - (medianBand obs i).getD 0) ^ 2 := by
    apply filterMap_eq_map_of_forall
    intro i _
    obtain ⟨x, hx⟩ := hb i
    obtain ⟨m, hm⟩ := medianBand_isSome obs o i x ho hx
    rw [hx, hm]
    simp
  rw [euclidean_distance_sum, hdiffs, if_neg (by simp), fullDist]

/-- The candidate tuples of the min(7) reduction are exactly the fully
unmasked observations, in collection order, each paired with its full
6-band squared distance to the per-band medians. -/
lemma candidatesOf_eq (obs : List Obs) :
    candidatesOf obs = (obs.filter allBandsSome).map fun o => (fullDist obs o, o) := by
  rw [candidatesOf]
  have aux : ∀ l : List Obs, (∀ o ∈ l, o ∈ obs) →
      (l.filterMap fun o =>
        match euclidean_distance_sum (medianBand obs) o, allBandsSome o with
        | some d, true => some (d, o)
        | _, _ => none) =
      (l.filter allBandsSome).map fun o => (fullDist obs o, o) := by
    intro l hsub
    induction l with
    | nil => simp
    | cons a t ih =>
        have ha : a ∈ obs := hsub a (List.mem_cons_self a t)
        have hsub2 : ∀ o ∈ t, o ∈ obs := fun o ho => hsub o (List.mem_cons_of_mem a ho)
        rw [List.filterMap_cons, List.filter_cons]
        cases hall : allBandsSome a with
        | true =>
            simp [dist_of_allBandsSome obs a ha hall, hall, ih hsub2]
        | false =>
            cases hd : euclidean_distance_sum (medianBand obs) a <;>
              simp [hall, hd, ih hsub2]
  exact aux obs fun o ho => ho

/-- Candidate components come from the filtered observation list. -/
lemma candidate_snd_mem (obs : List Obs) (c : ℚ × Obs)
    (hc : c ∈ candidatesOf obs) : c.2 ∈ obs := by
  rw [candidatesOf_eq] at hc
  obtain ⟨o, ho, rfl⟩ := List.mem_map.mp hc
  exact List.mem_of_mem_filter ho

end MedoidHelpers

section MedoidExampleHelpers

/-- The EE median of the two values 0 and 2 is 1. -/
lemma eeMedian_pair : eeMedian [(0 : ℚ), 2] = some 1 := by
  have hs : sortAsc (id : ℚ → ℚ) [0, 2] = [0, 2] := by
    show insertAsc id 0 (insertAsc id 2 []) = [0, 2]
    rw [show insertAsc (id : ℚ → ℚ) 2 [] = [2] from rfl, insertAsc,
      if_neg (by norm_num : ¬ (id (2 : ℚ) ≤ id 0))]
  rw [eeMedian]
  rw [if_neg (by norm_num)]
  simp only [hs]
  norm_num

/-- Every band median of the tie-break example is 1. -/
lemma medianBand_ex (i : Fin 6) : medianBand [o1ex, o2ex] i = some 1 := by
  show eeMedian ([o1ex, o2ex].filterMap fun o => o.b i) = some 1
  rw [show ([o1ex, o2ex].filterMap fun o => o.b i) = [(0 : ℚ), 2] from rfl]
  exact eeMedian_pair

/-- Full distance of the first example observation to the medians. -/
lemma fullDist_o1ex : fullDist [o1ex, o2ex] o1ex = 6 := by
  rw [fullDist]
  have hmap : ((List.finRange 6).map fun i =>
      ((o1ex.b i).getD 0 - ((medianBand [o1ex, o2ex] i).getD 0)) ^ 2) =
      (List.finRange 6).map fun _ => (1 : ℚ) := by
    apply List.map_congr_left
    intro i _
    rw [medianBand_ex i]
    show (((some (0 : ℚ)).getD 0) - ((some (1 : ℚ)).getD 0)) ^ 2 = 1
    norm_num
  rw [hmap]
  norm_num [List.sum_replicate, List.map_const]

/-- Full distance of the second example observation to the medians. -/
lemma fullDist_o2ex : fullDist [o1ex, o2ex] o2ex = 6 := by
  rw [fullDist]
  have hmap : ((List.finRange 6).map fun i =>
      ((o2ex.b i).getD 0 - ((medianBand [o1ex, o2ex] i).getD 0)) ^ 2) =
      (List.finRange 6).map fun _ => (1 : ℚ) := by
    apply List.map_congr_left
    intro i _
    rw [medianBand_ex i]
    show (((some (2 : ℚ)).getD 0) - ((some (1 : ℚ)).getD 0)) ^ 2 = 1
    norm_num
  rw [hmap]
  norm_num [List.sum_replicate, List.map_const]

/-- The candidate tuples of the tie-break example: both observations are
fully unmasked and tie at squared distance 6, in collection order. -/
lemma candidatesOf_ex : candidatesOf [o1ex, o2ex] = [(6, o1ex), (6, o2ex)] := by
  rw [candidatesOf_eq,
    show [o1ex, o2ex].filter allBandsSome = [o1ex, o2ex] from rfl]
  simp [fullDist_o1ex, fullDist_o2ex]

/-- On the tie, the min(7) reduction keeps the first candidate in
collection order. -/
lemma medoid_ex : extract_medoid_pixel [o1ex, o2ex] = some (6, o1ex) := by
  rw [extract_medoid_pixel, candidatesOf_ex]
  have hinner : minReduce7 [((6 : ℚ), o2ex)] = some (6, o2ex) := rfl
  rw [minReduce7, hinner]
  show (if (6 : ℚ) < 6 then some ((6 : ℚ), o2ex) else some (6, o1ex)) = some (6, o1ex)
  rw [if_neg (lt_irrefl _)]

/-- The single-observation candidate list of the witness input. -/
lemma candidatesOf_single : candidatesOf [o2ex] = [(fullDist [o2ex] o2ex, o2ex)] := by
  rw [candidatesOf_eq]
  rfl

end MedoidExampleHelpers

/-- Counterexample to the tie-break of claim C1 as stated: with two fully
valid observations tying at distance 6 to the per-band medians — all-zero
bands at timestamp 10 listed first (an earlier sensor's sub-collection),
all-two bands at timestamp 3 listed second — the composite keeps the FIRST
candidate in collection order, band value 0, not the band vector (value 2)
of the earliest-timestamp minimizer.  The min(7) reduction only sees the
seven numeric inputs (distance and the six bands), never the acquisition
timestamp, so no timestamp tie-break is expressible in it. -/
theorem C1_counterexample :
    medoid_bands [o1ex, o2ex] 0 = some 0 ∧
    euclidean_distance_sum (medianBand [o1ex, o2ex]) o1ex =
      euclidean_distance_sum (medianBand [o1ex, o2ex]) o2ex ∧
    o2ex.t < o1ex.t ∧
    o2ex.b 0 = some 2 ∧
    o1ex.b 0 ≠ o2ex.b 0 := by
  refine ⟨?_, ?_, by decide, rfl, ?_⟩
  · simp only [medoid_bands, medoid_ex]
    rfl
  · rw [dist_of_allBandsSome [o1ex, o2ex] o1ex (by simp) rfl,
      dist_of_allBandsSome [o1ex, o2ex] o2ex (by simp) rfl,
      fullDist_o1ex, fullDist_o2ex]
  · show some (0 : ℚ) ≠ some 2
    simp only [ne_eq, Option.some.injEq]
    norm_num

/-- Claim C1 as amended: for every pixel and compositing year with at least
one candidate Observation, the composite's 6-band vector equals exactly the
band vector of one candidate — the one at the first position in collection
order among those minimizing the squared Euclidean distance to the per-band
medians — never an interpolated value; ties on minimum distance are broken
by collection order (sensor-major), not by acquisition timestamp. -/
theorem C1_medoid_amended (obs : List Obs) (h : 0 < (candidatesOf obs).length) :
    ∃ (k : ℕ) (hk : k < (candidatesOf obs).length),
      extract_medoid_pixel obs = some ((candidatesOf obs).get ⟨k, hk⟩) ∧
      medoid_bands obs = ((candidatesOf obs).get ⟨k, hk⟩).2.b ∧
      ((candidatesOf obs).get ⟨k, hk⟩).2 ∈ obs ∧
      (∀ (j : ℕ) (hj : j < (candidatesOf obs).length),
        ((candidatesOf obs).get ⟨k, hk⟩).1 ≤ ((candidatesOf obs).get ⟨j, hj⟩).1) ∧
      (∀ (j : ℕ), j < k → ∀ (hj : j < (candidatesOf obs).length),
        ((candidatesOf obs).get ⟨k, hk⟩).1 < ((candidatesOf obs).get ⟨j, hj⟩).1) := by
  cases hmr : extract_medoid_pixel obs with
  | none =>
      exfalso
      have hnil := (minReduce7_eq_none_iff _).mp hmr
      rw [hnil] at h
      simp at h
  | some m =>
      obtain ⟨k, hk, hget, hmin, hstrict⟩ := minReduce7_spec _ m hmr
      refine ⟨k, hk, ?_, ?_, ?_, ?_, ?_⟩
      · rw [hget]
      · simp only [medoid_bands, hmr]
        rw [hget]
      · exact candidate_snd_mem obs _ (List.get_mem _ _ _)
      · intro j hj
        rw [hget]
        exact hmin j hj
      · intro j hjk hj
        rw [hget]
        exact hstrict j hjk hj

/-- Witness for C1_medoid_amended on a single-candidate pixel. -/
theorem C1_witness :
    ∃ (k : ℕ) (hk : k < (candidatesOf [o2ex]).length),
      extract_medoid_pixel [o2ex] = some ((candidatesOf [o2ex]).get ⟨k, hk⟩) ∧
      medoid_bands [o2ex] = ((candidatesOf [o2ex]).get ⟨k, hk⟩).2.b ∧
      ((candidatesOf [o2ex]).get ⟨k, hk⟩).2 ∈ [o2ex] ∧
      (∀ (j : ℕ) (hj : j < (candidatesOf [o2ex]).length),
        ((candidatesOf [o2ex]).get ⟨k, hk⟩).1 ≤ ((candidatesOf [o2ex]).get ⟨j, hj⟩).1) ∧
      (∀ (j : ℕ), j < k → ∀ (hj : j < (candidatesOf [o2ex]).length),
        ((candidatesOf [o2ex]).get ⟨k, hk⟩).1 < ((candidatesOf [o2ex]).get ⟨j, hj⟩).1) :=
  C1_medoid_amended [o2ex] (by rw [candidatesOf_single]; norm_num)

/-- Claim C6 (confirmed): in medoid candidacy, an Observation with any of
its six bands masked at the pixel is excluded whole from candidacy (never
compared as a partial vector), and the candidates are exactly the fully
unmasked Observations, each with the squared Euclidean distance summed over
all six bands against the per-band medians. -/
theorem C6_candidacy (obs : List Obs) :
    candidatesOf obs = (obs.filter allBandsSome).map fun o => (fullDist obs o, o) :=
  candidatesOf_eq obs

/-- Counterexample to claim C5 as stated: for a year (1990) present in the
series whose only image (January 15) falls outside the compositing window
(June 20 to September 10), the spec-mandated compositor reports the
DataError, but the source `_extract_medoid_image` is a total function with
no error channel — its own comment punts and assumes a non-empty filtered
collection — and silently produces the reduction of the empty collection,
an all-no-data composite stamped with the year.  So the claim's "reports a
DataError" is false of the code. -/
theorem C5_counterexample :
    spec_extract_medoid_image 1990 exColl 620 910 = .error DataError.emptyYear ∧
    (extract_medoid_image 1990 exColl 620 910).year = 1990 ∧
    ((List.finRange 6).all fun i =>
      ((extract_medoid_image 1990 exColl 620 910).pix () i).isNone) = true := by
  refine ⟨rfl, rfl, ?_⟩
  decide

/-- Claim C5 as amended: for every compositing year (a year present in the
series) whose filtered observation set is empty, the compositor raises no
error and reports no DataError — it silently assumes non-emptiness — but it
still produces an all-no-data composite Image for that year, carrying the
year and included in the yearly output collection, so the output shape is
preserved rather than the year being omitted. -/
theorem C5_empty_year_amended {P : Type} (collection : List (SRImage P)) (y : ℤ)
    (startMd endMd : ℕ) (hy : y ∈ collection.map SRImage.year)
    (hempty : filter_for_year collection y startMd endMd = []) :
    (extract_medoid_image y collection startMd endMd).year = y ∧
    (∀ (p : P) (i : Fin 6), (extract_medoid_image y collection startMd endMd).pix p i = none) ∧
    extract_medoid_image y collection startMd endMd ∈
      generate_medoid_collection collection startMd endMd := by
  refine ⟨rfl, ?_, ?_⟩
  · intro p i
    show medoid_bands (obsAt (filter_for_year collection y startMd endMd) p) i = none
    rw [hempty]
    rfl
  · have hyl : y ∈ create_yearly_list collection := by
      rw [create_yearly_list, mem_sortAsc]
      exact List.mem_dedup.mpr hy
    exact List.mem_map.mpr ⟨y, hyl, rfl⟩

/-- Witness for C5_empty_year_amended on the one-image January series. -/
theorem C5_witness :
    (extract_medoid_image 1990 exColl 620 910).year = 1990 ∧
    (extract_medoid_image 1990 exColl 620 910).pix () 0 = none ∧
    extract_medoid_image 1990 exColl 620 910 ∈
      generate_medoid_collection exColl 620 910 := by
  have h := C5_empty_year_amended exColl 1990 620 910 (by simp [exColl]) rfl
  exact ⟨h.1, h.2.1 () 0, h.2.2⟩

end Forest
